import Mathlib

/-!
# Verification of the resvg WASM boundary module (`src/resvg-wasm/src/lib.rs`)

Shallow embedding of the module's singleton state and exported operations.

Modelling conventions:
* Byte sequences crossing the boundary are `List Nat` (each entry a byte value).
* The `Arc<fontdb::Database>` in the `FONT_DB` singleton is modelled as a pair
  `(strong count, database)`; `Arc::get_mut(..).unwrap()` succeeds exactly when
  the strong count is 1 and otherwise panics, which the model renders as `none`.
* 64-bit floats (the decoded `scale` and the intrinsic sizes) are modelled
  exactly: an `MFloat` is NaN, a signed infinity, or an exact rational value.
  Rounding error of `f64` arithmetic is not modelled; the claims under
  verification depend only on sign, zero, NaN and saturation behaviour, which
  the exact model shares with IEEE-754.
* The external collaborators (usvg parser, rasterizer) are parameters of the
  render pipeline, collected in `Externals`; the tiny_skia pixmap allocator and
  the PNG encoder are modelled concretely from their documented contracts.
-/

/-- A sequence of bytes handed across the WASM boundary. -/
abbrev Bytes := List Nat

/-- ASCII string literal as its byte sequence (all message literals in the
source are ASCII, so code points coincide with UTF-8 bytes). -/
def asciiBytes (s : String) : Bytes := s.data.map Char.toNat

/-! ## Exact model of the `f64` values flowing through `render` -/

/-- A 64-bit float value: NaN, a signed infinity (`inf true` = +∞), or an
exact finite value. Finite arithmetic is exact rational arithmetic. -/
inductive MFloat where
  | nan : MFloat
  | inf (pos : Bool) : MFloat
  | val (q : ℚ) : MFloat
deriving DecidableEq

/-- IEEE-754 multiplication on the model: NaN is absorbing, `±∞ * 0 = NaN`,
signs multiply, finite values multiply exactly. -/
def mfMul : MFloat → MFloat → MFloat
  | .nan, _ => .nan
  | _, .nan => .nan
  | .inf a, .inf b => .inf (a = b)
  | .inf a, .val q => if q = 0 then .nan else .inf (a = decide (0 < q))
  | .val q, .inf a => if q = 0 then .nan else .inf (a = decide (0 < q))
  | .val a, .val b => .val (a * b)

/-- Model of `f64::ceil`: identity on NaN and infinities, the exact ceiling on finite
values. -/
def mfCeil : MFloat → MFloat
  | .nan => .nan
  | .inf b => .inf b
  | .val q => .val (⌈q⌉ : ℚ)

/-- Rust's saturating `as u32` cast on an `f64`: NaN and everything ≤ 0 map
to 0, +∞ and everything ≥ `u32::MAX` map to `u32::MAX`, finite positive
values truncate toward zero. -/
def castU32 : MFloat → Nat
  | .nan => 0
  | .inf b => if b then 2 ^ 32 - 1 else 0
  | .val q => if q ≤ 0 then 0 else min (⌊q⌋).toNat (2 ^ 32 - 1)

/-- The scale is strictly positive (`+∞` counts as positive, NaN does not). -/
def mfPos : MFloat → Bool
  | .nan => false
  | .inf b => b
  | .val q => decide (0 < q)

/-! ## UTF-8 decoding (`std::str::from_utf8`)

Structural model of the standard UTF-8 validation/decoding algorithm: the
result is the list of decoded code points, or `none` on invalid input.
Overlong encodings, surrogates and out-of-range values are rejected, matching
the Rust standard library. The recursion is driven by a fuel argument equal
to the input length; each step consumes at least one byte, so the fuel never
runs out on the wrapper's call. -/

/-- A UTF-8 continuation byte. -/
def isCont (b : Nat) : Bool := 0x80 ≤ b && b ≤ 0xBF

/-- Admissible second byte of a three-byte sequence led by `b` (rejects
overlong encodings for `0xE0` and surrogates for `0xED`). -/
def cont3 (b b2 : Nat) : Bool :=
  if b = 0xE0 then 0xA0 ≤ b2 && b2 ≤ 0xBF
  else if b = 0xED then 0x80 ≤ b2 && b2 ≤ 0x9F
  else isCont b2

/-- Admissible second byte of a four-byte sequence led by `b` (rejects
overlong encodings for `0xF0` and values beyond U+10FFFF for `0xF4`). -/
def cont4 (b b2 : Nat) : Bool :=
  if b = 0xF0 then 0x90 ≤ b2 && b2 ≤ 0xBF
  else if b = 0xF4 then 0x80 ≤ b2 && b2 ≤ 0x8F
  else isCont b2

/-- Fuel-indexed UTF-8 decoder core. -/
def utf8Go : Nat → Bytes → Option Bytes
  | _, [] => some []
  | 0, _ :: _ => none
  | fuel + 1, b :: rest =>
    if b < 0x80 then
      (utf8Go fuel rest).map (fun cs => b :: cs)
    else if 0xC2 ≤ b && b ≤ 0xDF then
      match rest with
      | b2 :: r =>
        if isCont b2 then
          (utf8Go fuel r).map (fun cs => ((b % 32) * 64 + b2 % 64) :: cs)
        else none
      | [] => none
    else if 0xE0 ≤ b && b ≤ 0xEF then
      match rest with
      | b2 :: b3 :: r =>
        if cont3 b b2 && isCont b3 then
          (utf8Go fuel r).map
            (fun cs => ((b % 16) * 4096 + (b2 % 64) * 64 + b3 % 64) :: cs)
        else none
      | _ => none
    else if 0xF0 ≤ b && b ≤ 0xF4 then
      match rest with
      | b2 :: b3 :: b4 :: r =>
        if cont4 b b2 && isCont b3 && isCont b4 then
          (utf8Go fuel r).map
            (fun cs =>
              ((b % 8) * 262144 + (b2 % 64) * 4096 + (b3 % 64) * 64 + b4 % 64) :: cs)
        else none
      | _ => none
    else none

/-- Model of `std::str::from_utf8`: decode a byte sequence to its code points, or
`none` when the bytes are not valid UTF-8. -/
def utf8Decode (bs : Bytes) : Option Bytes := utf8Go bs.length bs

/-! ## Singleton state and error messages -/

/-- The `usvg::fontdb::Database`, restricted to the state the module can
observe and mutate: the sans-serif and monospace family substitutions (as
decoded code-point sequences; `none` = library default) and the list of
loaded font blobs. `Database::new()` yields the empty record. -/
structure FontDb where
  sansSerif : Option Bytes
  monospace : Option Bytes
  fonts : List Bytes
deriving DecidableEq

/-- Model of `usvg::fontdb::Database::new()`. -/
def FontDb.empty : FontDb := ⟨none, none, []⟩

/-- The module's process-wide singletons: `FONT_DB` (with the Arc strong
count), `RESULT_BUF` and `ERROR_BUF`. -/
structure WasmState where
  fontDb : Option (Nat × FontDb)
  resultBuf : Bytes
  errorBuf : Bytes
deriving DecidableEq

/-- The state at module instantiation: no font database, empty buffers. -/
def initState : WasmState := ⟨none, [], []⟩

/-- Helper `set_error`: overwrite `ERROR_BUF` with a message. -/
def setError (msg : Bytes) (s : WasmState) : WasmState := { s with errorBuf := msg }

/-- Message of `format!("invalid UTF-8: {}", e)`. The tail rendered from the
standard library's `Utf8Error` is outside the model; the model keeps the
literal part, which identifies the failure site. -/
def invalidUtf8Msg : Bytes := asciiBytes ("invalid UTF-8")

/-- Message `"font_db not initialized"`. -/
def notInitializedMsg : Bytes := asciiBytes ("font_db not initialized")

/-- Message of `format!("SVG parse error: {}", e)`. -/
def parseErrMsg (e : Bytes) : Bytes := asciiBytes ("SVG parse error: ") ++ e

/-- Message `"SVG has zero dimensions"`. -/
def zeroDimMsg : Bytes := asciiBytes ("SVG has zero dimensions")

/-- Message `"failed to create pixmap"`. -/
def pixmapFailMsg : Bytes := asciiBytes ("failed to create pixmap")

/-- Message of `format!("PNG encode error: {}", e)`. -/
def pngErrMsg (e : Bytes) : Bytes := asciiBytes ("PNG encode error: ") ++ e

/-! ## External collaborators -/

/-- The observable part of a `usvg::Tree` used by `render`: the intrinsic
size reported by `tree.size()`, width and height as exact values of the
underlying floats. -/
structure SvgTree where
  width : ℚ
  height : ℚ
deriving DecidableEq

/-- A `tiny_skia::Pixmap`: dimensions plus raw pixel bytes. -/
structure Pixmap where
  width : Nat
  height : Nat
  content : Bytes
deriving DecidableEq

/-- Modelled from the spec: the Raster Surface allocation of §4.3 step 5
("Allocate a Raster Surface of the computed dimensions. Failure (e.g.
dimension overflow) → `SurfaceAllocationError`"). The external
`tiny_skia::Pixmap::new` returns `None` when a dimension is zero or when the
pixel buffer size `w*h*4` does not fit the 32-bit address space of the wasm32
target; otherwise it yields a zero-filled (transparent) surface. -/
def pixmapNew (w h : Nat) : Option Pixmap :=
  if w ≠ 0 ∧ h ≠ 0 ∧ w * h * 4 < 2 ^ 32 then
    some ⟨w, h, List.replicate (w * h * 4) 0⟩
  else none

/-- Big-endian 4-byte encoding of a 32-bit value. -/
def encU32 (n : Nat) : Bytes :=
  [n / 2 ^ 24 % 256, n / 2 ^ 16 % 256, n / 2 ^ 8 % 256, n % 256]

/-- Modelled from the spec: the external PNG encoder of §4.3 step 7 ("Encode
the Raster Surface into an output byte stream") whose output carries the
surface's dimensions (§6: "dimensions equal `ceil(intrinsic_size * scale)`
per axis"). The model serializes the dimensions followed by the pixel
content; the real encoder's failure branch (`EncodingError`) is kept in the
pipeline's structure but never taken by the model. -/
def encodePng (pm : Pixmap) : Except Bytes Bytes :=
  .ok (encU32 pm.width ++ encU32 pm.height ++ pm.content)

/-- Dimensions recorded in an encoded image, read back from its first eight
bytes. -/
def pngDims (png : Bytes) : Option (Nat × Nat) :=
  match png with
  | a :: b :: c :: d :: e :: f :: g :: h :: _ =>
      some (((a * 256 + b) * 256 + c) * 256 + d, ((e * 256 + f) * 256 + g) * 256 + h)
  | _ => none

/-- The input-dependent external collaborators of the render pipeline: the
usvg parser (`usvg::Tree::from_str`, reading the font database through the
options) and the resvg rasterizer (`resvg::render`, producing the pixel
content painted into a surface of the given dimensions). -/
structure Externals where
  parseTree : FontDb → Bytes → Except Bytes SvgTree
  rasterize : SvgTree → MFloat → Nat → Nat → Bytes

/-! ## Exported operations -/

/-- Export `font_db_init`: unconditionally replace `FONT_DB` with a fresh
`Arc::new(Database::new())` (strong count 1). -/
def font_db_init (s : WasmState) : WasmState :=
  { s with fontDb := some (1, FontDb.empty) }

/-- Export `font_db_set_sans_serif`: decode the name as UTF-8 (failure →
`invalid UTF-8`, status −1), require the database (absence →
`font_db not initialized`, status −1), then mutate through
`Arc::get_mut(..).unwrap()` — which panics (`none`) unless the strong count
is 1 — and return 0. -/
def font_db_set_sans_serif (nameBytes : Bytes) (s : WasmState) :
    Option (Int × WasmState) :=
  match utf8Decode nameBytes with
  | none => some (-1, setError invalidUtf8Msg s)
  | some name =>
    match s.fontDb with
    | some (c, db) =>
      if c = 1 then
        some (0, { s with fontDb := some (1, { db with sansSerif := some name }) })
      else none
    | none => some (-1, setError notInitializedMsg s)

/-- Export `font_db_set_monospace`: same shape as `font_db_set_sans_serif`, mutating
the monospace substitution. -/
def font_db_set_monospace (nameBytes : Bytes) (s : WasmState) :
    Option (Int × WasmState) :=
  match utf8Decode nameBytes with
  | none => some (-1, setError invalidUtf8Msg s)
  | some name =>
    match s.fontDb with
    | some (c, db) =>
      if c = 1 then
        some (0, { s with fontDb := some (1, { db with monospace := some name }) })
      else none
    | none => some (-1, setError notInitializedMsg s)

/-- Export `font_db_add`: no UTF-8 check; require the database (absence →
`font_db not initialized`, status −1), then append the bytes via
`load_font_data` through `Arc::get_mut(..).unwrap()` (panic = `none` unless
the strong count is 1) and return 0. -/
def font_db_add (data : Bytes) (s : WasmState) : Option (Int × WasmState) :=
  match s.fontDb with
  | some (c, db) =>
    if c = 1 then
      some (0, { s with fontDb := some (1, { db with fonts := db.fonts ++ [data] }) })
    else none
  | none => some (-1, setError notInitializedMsg s)

/-- Export `render`: clear both buffers, then decode the markup as UTF-8, require
the font database (cloning its Arc for the options — the clone is dropped
with the transient tree before the call returns, so the net strong count is
unchanged), parse, compute target dimensions as
`ceil(intrinsic * scale) as u32` per axis, reject zero dimensions, allocate
the pixmap, rasterize with the uniform scale transform, encode to PNG and
store the bytes in `RESULT_BUF`. Every failure overwrites `ERROR_BUF` and
returns −1 immediately. -/
def render (ext : Externals) (svgData : Bytes) (scale : MFloat) (s0 : WasmState) :
    Int × WasmState :=
  let s := { s0 with resultBuf := ([] : Bytes), errorBuf := ([] : Bytes) }
  match utf8Decode svgData with
  | none => (-1, setError invalidUtf8Msg s)
  | some svgStr =>
    match s.fontDb with
    | none => (-1, setError notInitializedMsg s)
    | some (_, db) =>
      match ext.parseTree db svgStr with
      | .error e => (-1, setError (parseErrMsg e) s)
      | .ok tree =>
        let w := castU32 (mfCeil (mfMul (.val tree.width) scale))
        let h := castU32 (mfCeil (mfMul (.val tree.height) scale))
        if w = 0 ∨ h = 0 then (-1, setError zeroDimMsg s)
        else
          match pixmapNew w h with
          | none => (-1, setError pixmapFailMsg s)
          | some pm =>
            let painted : Pixmap := { pm with content := ext.rasterize tree scale pm.width pm.height }
            match encodePng painted with
            | .error e => (-1, setError (pngErrMsg e) s)
            | .ok png => (0, { s with resultBuf := png })

/-- Export `result_ptr`: expose the Result Buffer's address. The raw address value
lies outside the byte-level model (memory layout); only the frame effect —
the state passes through unchanged — is modelled. -/
def result_ptr (s : WasmState) : Unit × WasmState := ((), s)

/-- Export `result_len`: `RESULT_BUF.len() as u32`, state unchanged. -/
def result_len (s : WasmState) : Nat × WasmState :=
  (s.resultBuf.length % 2 ^ 32, s)

/-- Export `error_ptr`: expose the Error Buffer's address; state unchanged (see
`result_ptr`). -/
def error_ptr (s : WasmState) : Unit × WasmState := ((), s)

/-- Export `error_len`: `ERROR_BUF.len() as u32`, state unchanged. -/
def error_len (s : WasmState) : Nat × WasmState :=
  (s.errorBuf.length % 2 ^ 32, s)

/-! ## Sequential execution of exported operations -/

/-- One exported call, with its boundary arguments. -/
inductive Op where
  | init : Op
  | setSans (name : Bytes) : Op
  | setMono (name : Bytes) : Op
  | addFont (data : Bytes) : Op
  | doRender (svg : Bytes) (scale : MFloat) : Op

/-- Run one exported call; `none` models a panic (the Arc exclusivity
assertion failing). -/
def execOp (ext : Externals) (op : Op) (s : WasmState) : Option WasmState :=
  match op with
  | .init => some (font_db_init s)
  | .setSans n => (font_db_set_sans_serif n s).map Prod.snd
  | .setMono n => (font_db_set_monospace n s).map Prod.snd
  | .addFont d => (font_db_add d s).map Prod.snd
  | .doRender svg scale => some (render ext svg scale s).2

/-- Run a sequence of exported calls, stopping at the first panic. -/
def execOps (ext : Externals) : List Op → WasmState → Option WasmState
  | [], s => some s
  | op :: ops, s => (execOp ext op s).bind (execOps ext ops)

/-- A fixed instantiation of the external collaborators used to run the model
on concrete inputs: the parser accepts everything as a 1×1 scene tree and the
rasterizer paints nothing. -/
def trivExt : Externals :=
  ⟨fun _ _ => .ok ⟨1, 1⟩, fun _ _ _ _ => []⟩

/-! ## Shared lemmas -/

/-- The recorded dimensions read back from an encoded image. -/
lemma pngDims_encode (w h : Nat) (rest : Bytes) (hw : w < 2 ^ 32) (hh : h < 2 ^ 32) :
    pngDims (encU32 w ++ encU32 h ++ rest) = some (w, h) := by
  simp only [encU32, List.cons_append, List.nil_append, pngDims]
  refine congrArg some (Prod.ext ?_ ?_) <;> simp only [] <;> omega

lemma parseErrMsg_ne_nil (e : Bytes) : parseErrMsg e ≠ [] := by
  intro h
  exact absurd (List.append_eq_nil.mp h).1 (by decide)

lemma invalidUtf8Msg_ne_nil : invalidUtf8Msg ≠ [] := by decide

lemma notInitializedMsg_ne_nil : notInitializedMsg ≠ [] := by decide

lemma zeroDimMsg_ne_nil : zeroDimMsg ≠ [] := by decide

lemma pixmapFailMsg_ne_nil : pixmapFailMsg ≠ [] := by decide

lemma pngErrMsg_ne_nil (e : Bytes) : pngErrMsg e ≠ [] := by
  intro h
  exact absurd (List.append_eq_nil.mp h).1 (by decide)

/-- Once decoding, database lookup and parsing succeed, `render` reduces to
the dimension computation, surface allocation and encoding. -/
lemma render_parsed (ext : Externals) (svg : Bytes) (scale : MFloat) (s : WasmState)
    (c : Nat) (db : FontDb) (cps : Bytes) (tree : SvgTree)
    (hdb : s.fontDb = some (c, db)) (hdec : utf8Decode svg = some cps)
    (hparse : ext.parseTree db cps = .ok tree) :
    render ext svg scale s =
      (if castU32 (mfCeil (mfMul (.val tree.width) scale)) = 0 ∨
          castU32 (mfCeil (mfMul (.val tree.height) scale)) = 0 then
        (-1, { s with resultBuf := [], errorBuf := zeroDimMsg })
      else
        match pixmapNew (castU32 (mfCeil (mfMul (.val tree.width) scale)))
            (castU32 (mfCeil (mfMul (.val tree.height) scale))) with
        | none => (-1, { s with resultBuf := [], errorBuf := pixmapFailMsg })
        | some pm =>
            (0, { s with
                  resultBuf := encU32 pm.width ++ encU32 pm.height ++
                    ext.rasterize tree scale pm.width pm.height,
                  errorBuf := [] })) := by
  simp only [render, hdec, hdb, hparse, encodePng, setError]

/-- Full shape of a `render` call: it returns 0 with a non-empty result and
clean error buffer, or −1 with an empty result and the message of exactly one
failure site; the font database passes through untouched either way. -/
lemma render_shape (ext : Externals) (svg : Bytes) (scale : MFloat) (s : WasmState) :
    (∃ st, render ext svg scale s = (0, st) ∧ st.errorBuf = [] ∧
      st.resultBuf ≠ [] ∧ st.fontDb = s.fontDb) ∨
    (∃ st msg, render ext svg scale s = (-1, st) ∧ st.resultBuf = [] ∧
      st.errorBuf = msg ∧ msg ≠ [] ∧ st.fontDb = s.fontDb ∧
      (msg = invalidUtf8Msg ∨ msg = notInitializedMsg ∨ (∃ e, msg = parseErrMsg e) ∨
        msg = zeroDimMsg ∨ msg = pixmapFailMsg ∨ ∃ e, msg = pngErrMsg e)) := by
  unfold render
  cases hdec : utf8Decode svg with
  | none =>
    exact Or.inr ⟨_, _, rfl, rfl, rfl, invalidUtf8Msg_ne_nil, rfl, Or.inl rfl⟩
  | some cps =>
    dsimp only
    cases hdb : s.fontDb with
    | none =>
      exact Or.inr ⟨_, _, rfl, rfl, rfl, notInitializedMsg_ne_nil, rfl,
        Or.inr (Or.inl rfl)⟩
    | some p =>
      obtain ⟨c, db⟩ := p
      dsimp only
      cases hparse : ext.parseTree db cps with
      | error e =>
        exact Or.inr ⟨_, _, rfl, rfl, rfl, parseErrMsg_ne_nil e, rfl,
          Or.inr (Or.inr (Or.inl ⟨e, rfl⟩))⟩
      | ok tree =>
        dsimp only
        by_cases hz : castU32 (mfCeil (mfMul (.val tree.width) scale)) = 0 ∨
            castU32 (mfCeil (mfMul (.val tree.height) scale)) = 0
        · rw [if_pos hz]
          exact Or.inr ⟨_, _, rfl, rfl, rfl, zeroDimMsg_ne_nil, rfl,
            Or.inr (Or.inr (Or.inr (Or.inl rfl)))⟩
        · rw [if_neg hz]
          cases hpm : pixmapNew (castU32 (mfCeil (mfMul (.val tree.width) scale)))
              (castU32 (mfCeil (mfMul (.val tree.height) scale))) with
          | none =>
            exact Or.inr ⟨_, _, rfl, rfl, rfl, pixmapFailMsg_ne_nil, rfl,
              Or.inr (Or.inr (Or.inr (Or.inr (Or.inl rfl))))⟩
          | some pm =>
            refine Or.inl ⟨_, rfl, rfl, ?_, rfl⟩
            simp [encodePng, encU32]

/-- Lemma: `render` never touches `FONT_DB`: the Arc clone it takes is dropped with
the transient tree before returning. -/
lemma render_preserves_fontDb (ext : Externals) (svg : Bytes) (scale : MFloat)
    (s : WasmState) : (render ext svg scale s).2.fontDb = s.fontDb := by
  rcases render_shape ext svg scale s with ⟨st, hr, _, _, hf⟩ | ⟨st, msg, hr, _, _, _, hf, _⟩ <;>
    rw [hr] <;> exact hf

/-- The exclusive-ownership invariant: whenever the database exists, its Arc
has exactly one strong owner. -/
def CountOk (s : WasmState) : Prop := ∀ c db, s.fontDb = some (c, db) → c = 1

lemma countOk_initState : CountOk initState := by
  intro c db h
  simp [initState] at h

/-- Every exported call run on a state satisfying the ownership invariant
completes without panicking and re-establishes the invariant. -/
lemma execOp_total_countOk (ext : Externals) (op : Op) (s : WasmState)
    (h : CountOk s) : ∃ s', execOp ext op s = some s' ∧ CountOk s' := by
  cases op with
  | init =>
    refine ⟨_, rfl, ?_⟩
    intro c db hc
    simp [font_db_init] at hc
    exact hc.1.symm
  | setSans n =>
    unfold execOp font_db_set_sans_serif
    dsimp only
    cases hdec : utf8Decode n with
    | none => exact ⟨_, rfl, fun c db hc => h c db hc⟩
    | some name =>
      dsimp only
      cases hdb : s.fontDb with
      | none => exact ⟨_, rfl, fun c db hc => h c db hc⟩
      | some p =>
        obtain ⟨c, db⟩ := p
        have hc1 : c = 1 := h c db hdb
        subst hc1
        refine ⟨_, rfl, ?_⟩
        intro c' db' hc'
        simp at hc'
        exact hc'.1.symm
  | setMono n =>
    unfold execOp font_db_set_monospace
    dsimp only
    cases hdec : utf8Decode n with
    | none => exact ⟨_, rfl, fun c db hc => h c db hc⟩
    | some name =>
      dsimp only
      cases hdb : s.fontDb with
      | none => exact ⟨_, rfl, fun c db hc => h c db hc⟩
      | some p =>
        obtain ⟨c, db⟩ := p
        have hc1 : c = 1 := h c db hdb
        subst hc1
        refine ⟨_, rfl, ?_⟩
        intro c' db' hc'
        simp at hc'
        exact hc'.1.symm
  | addFont d =>
    unfold execOp font_db_add
    dsimp only
    cases hdb : s.fontDb with
    | none => exact ⟨_, rfl, fun c db hc => h c db hc⟩
    | some p =>
      obtain ⟨c, db⟩ := p
      have hc1 : c = 1 := h c db hdb
      subst hc1
      refine ⟨_, rfl, ?_⟩
      intro c' db' hc'
      simp at hc'
      exact hc'.1.symm
  | doRender svg scale =>
    refine ⟨_, rfl, ?_⟩
    intro c db hc
    rw [render_preserves_fontDb] at hc
    exact h c db hc

lemma execOps_total_countOk (ext : Externals) (ops : List Op) (s : WasmState)
    (h : CountOk s) : ∃ s', execOps ext ops s = some s' ∧ CountOk s' := by
  induction ops generalizing s with
  | nil => exact ⟨s, rfl, h⟩
  | cons op ops ih =>
    obtain ⟨s1, h1, hok1⟩ := execOp_total_countOk ext op s h
    obtain ⟨s2, h2, hok2⟩ := ih s1 hok1
    exact ⟨s2, by simp [execOps, h1, h2], hok2⟩

/-! ## Claims -/

/-- C10: the four accessors `result_ptr`, `result_len`, `error_ptr`,
`error_len` mutate no singleton state, and the two length accessors return
exactly the current byte length of their buffer. -/
theorem accessors_readonly_exact_length (s : WasmState) :
    (result_ptr s).2 = s ∧ (error_ptr s).2 = s ∧
    (result_len s).2 = s ∧ (error_len s).2 = s ∧
    (s.resultBuf.length < 2 ^ 32 → (result_len s).1 = s.resultBuf.length) ∧
    (s.errorBuf.length < 2 ^ 32 → (error_len s).1 = s.errorBuf.length) :=
  ⟨rfl, rfl, rfl, rfl, fun h => Nat.mod_eq_of_lt h, fun h => Nat.mod_eq_of_lt h⟩

/-- Witness for C10 at a concrete state. -/
theorem accessors_readonly_exact_length_witness :
    (result_len ⟨none, [1, 2, 3], [4]⟩).1 = 3 ∧ (error_len ⟨none, [1, 2, 3], [4]⟩).1 = 1 :=
  ⟨(accessors_readonly_exact_length ⟨none, [1, 2, 3], [4]⟩).2.2.2.2.1 (by decide),
   (accessors_readonly_exact_length ⟨none, [1, 2, 3], [4]⟩).2.2.2.2.2 (by decide)⟩

/-- C6: `font_db_init` always yields the fresh empty database with a single
owner: after any panic-free sequence of exported calls from the initial
state, re-initializing leaves exactly the state a single `font_db_init` from
the uninitialized state produces. -/
theorem font_db_init_fresh (ext : Externals) (ops : List Op) (s' : WasmState)
    (h : execOps ext ops initState = some s') :
    (font_db_init s').fontDb = (font_db_init initState).fontDb ∧
    (font_db_init s').fontDb = some (1, FontDb.empty) :=
  ⟨rfl, rfl⟩

/-- Witness for C6 after an init-and-load sequence. -/
theorem font_db_init_fresh_witness :
    (font_db_init ⟨some (1, ⟨none, none, [[1, 2]]⟩), [], []⟩).fontDb =
      some (1, FontDb.empty) :=
  (font_db_init_fresh trivExt [Op.init, Op.addFont [1, 2]]
    ⟨some (1, ⟨none, none, [[1, 2]]⟩), [], []⟩ (by decide)).2

/-- C9: `font_db_add` accepts every byte sequence, valid font data or not: on
an initialized database (which, by the ownership invariant, has strong count
1) it appends the blob and returns 0; the only reported failure is the
uninitialized-database case. -/
theorem font_db_add_accepts_all (data : Bytes) (s : WasmState) :
    (∀ db, s.fontDb = some (1, db) →
      font_db_add data s =
        some (0, { s with fontDb := some (1, { db with fonts := db.fonts ++ [data] }) })) ∧
    (s.fontDb = none →
      font_db_add data s = some (-1, setError notInitializedMsg s)) := by
  constructor
  · intro db h
    simp [font_db_add, h]
  · intro h
    simp [font_db_add, h]

/-- Witness for C9: arbitrary (non-font) bytes are accepted with status 0. -/
theorem font_db_add_accepts_all_witness :
    font_db_add [0, 255, 7] (font_db_init initState) =
      some (0, ⟨some (1, ⟨none, none, [[0, 255, 7]]⟩), [], []⟩) :=
  (font_db_add_accepts_all [0, 255, 7] (font_db_init initState)).1 FontDb.empty rfl

/-- C5: non-UTF-8 bytes passed to any text-accepting operation
(`font_db_set_sans_serif`, `font_db_set_monospace`, `render`) give status −1
with the InvalidEncoding message, and the only singleton state touched is the
Error Buffer (for `render`, also the Result Buffer, which it clears). -/
theorem invalid_utf8_rejected (bytes : Bytes) (ext : Externals) (scale : MFloat)
    (s : WasmState) (h : utf8Decode bytes = none) :
    font_db_set_sans_serif bytes s = some (-1, { s with errorBuf := invalidUtf8Msg }) ∧
    font_db_set_monospace bytes s = some (-1, { s with errorBuf := invalidUtf8Msg }) ∧
    render ext bytes scale s =
      (-1, { s with resultBuf := [], errorBuf := invalidUtf8Msg }) := by
  refine ⟨?_, ?_, ?_⟩ <;>
    simp [font_db_set_sans_serif, font_db_set_monospace, render, h, setError]

/-- Witness for C5 on the invalid byte `0xFF`. -/
theorem invalid_utf8_rejected_witness :
    utf8Decode [255] = none ∧
    font_db_set_sans_serif [255] initState =
      some (-1, ⟨none, [], invalidUtf8Msg⟩) ∧
    render trivExt [255] (.val 1) initState = (-1, ⟨none, [], invalidUtf8Msg⟩) := by
  have h : utf8Decode [255] = none := by decide
  have hr := invalid_utf8_rejected [255] trivExt (.val 1) initState h
  exact ⟨h, hr.1, hr.2.2⟩

/-- C2 (amended): `render` before any `font_db_init` always returns −1, and
whenever the markup is valid UTF-8 the Error Buffer holds the NotInitialized
message; for invalid UTF-8 the decoding check fires first and the buffer
holds the InvalidEncoding message instead. -/
theorem render_uninitialized (ext : Externals) (svg : Bytes) (scale : MFloat)
    (s : WasmState) (h : s.fontDb = none) :
    (render ext svg scale s).1 = -1 ∧
    (∀ cps, utf8Decode svg = some cps →
      (render ext svg scale s).2.errorBuf = notInitializedMsg) := by
  unfold render
  cases hdec : utf8Decode svg with
  | none => exact ⟨rfl, fun cps hc => by simp at hc⟩
  | some cps =>
    dsimp only
    rw [show ({ s with resultBuf := ([] : Bytes), errorBuf := ([] : Bytes)} : WasmState).fontDb
          = s.fontDb from rfl, h]
    exact ⟨rfl, fun _ _ => rfl⟩

/-- Witness for C2 (amended): valid-UTF-8 markup before init. -/
theorem render_uninitialized_witness :
    (render trivExt [60] (.val 1) initState).1 = -1 ∧
    (render trivExt [60] (.val 1) initState).2.errorBuf = notInitializedMsg := by
  have h := render_uninitialized trivExt [60] (.val 1) initState rfl
  exact ⟨h.1, h.2 [60] (by decide)⟩

/-- Counterexample to C2 as stated: with the font database never
initialized, non-UTF-8 markup still returns −1, but the Error Buffer holds
the InvalidEncoding message, not a NotInitialized-class one — the UTF-8
check precedes the initialization check. -/
theorem render_uninitialized_cex :
    initState.fontDb = none ∧
    (render trivExt [255] (.val 1) initState).1 = -1 ∧
    (render trivExt [255] (.val 1) initState).2.errorBuf = invalidUtf8Msg ∧
    invalidUtf8Msg ≠ notInitializedMsg := by decide

/-- C4: on an initialized database and successfully parsed markup, if either
computed target dimension `ceil(intrinsic * scale) as u32` is zero, `render`
returns −1 with the EmptyOutput message and the Result Buffer stays empty. -/
theorem render_zero_dimension (ext : Externals) (svg : Bytes) (scale : MFloat)
    (s : WasmState) (c : Nat) (db : FontDb) (cps : Bytes) (tree : SvgTree)
    (hdb : s.fontDb = some (c, db)) (hdec : utf8Decode svg = some cps)
    (hparse : ext.parseTree db cps = .ok tree)
    (hz : castU32 (mfCeil (mfMul (.val tree.width) scale)) = 0 ∨
          castU32 (mfCeil (mfMul (.val tree.height) scale)) = 0) :
    render ext svg scale s = (-1, { s with resultBuf := [], errorBuf := zeroDimMsg }) := by
  rw [render_parsed ext svg scale s c db cps tree hdb hdec hparse, if_pos hz]

/-- Witness for C4: a 1×1 scene at scale 0 rounds to zero pixels. -/
theorem render_zero_dimension_witness :
    render trivExt [60] (.val 0) (font_db_init initState) =
      (-1, ⟨some (1, FontDb.empty), [], zeroDimMsg⟩) := by
  refine render_zero_dimension trivExt [60] (.val 0) (font_db_init initState)
    1 FontDb.empty [60] ⟨1, 1⟩ rfl (by decide) rfl (Or.inl ?_)
  norm_num [mfMul, mfCeil, castU32]

lemma castU32_val_nonpos (q : ℚ) (h : q ≤ 0) : castU32 (.val q) = 0 := by
  simp [castU32, h]

/-- A positive intrinsic dimension times a non-positive or NaN scale rounds
and casts to 0. -/
lemma dim_zero_of_bad_scale (t : ℚ) (scale : MFloat) (ht : 0 < t)
    (hscale : scale = .nan ∨ scale = .inf false ∨ ∃ q, scale = .val q ∧ q ≤ 0) :
    castU32 (mfCeil (mfMul (.val t) scale)) = 0 := by
  rcases hscale with rfl | rfl | ⟨q, rfl, hq⟩
  · rfl
  · have ht' : t ≠ 0 := ne_of_gt ht
    have hd : decide (0 < t) = true := decide_eq_true ht
    simp [mfMul, ht', hd, mfCeil, castU32]
  · have h1 : t * q ≤ 0 := mul_nonpos_iff.mpr (Or.inl ⟨ht.le, hq⟩)
    have h2 : ⌈t * q⌉ ≤ (0 : ℤ) := Int.ceil_le.mpr (by exact_mod_cast h1)
    have h3 : (⌈t * q⌉ : ℚ) ≤ 0 := by exact_mod_cast h2
    simpa [mfMul, mfCeil] using castU32_val_nonpos _ h3

/-- C8: with an initialized database and markup parsing to a positive
intrinsic size, a scale that decodes to a non-positive value or NaN drives
both computed dimensions to 0 — the saturating float-to-u32 cast maps
negative and NaN results to 0 — so `render` returns −1 with the
zero-dimensions (EmptyOutput-class) error instead of aborting. -/
theorem render_bad_scale_empty_output (ext : Externals) (svg : Bytes) (scale : MFloat)
    (s : WasmState) (c : Nat) (db : FontDb) (cps : Bytes) (tree : SvgTree)
    (hdb : s.fontDb = some (c, db)) (hdec : utf8Decode svg = some cps)
    (hparse : ext.parseTree db cps = .ok tree)
    (hw : 0 < tree.width) (hh : 0 < tree.height)
    (hscale : scale = .nan ∨ scale = .inf false ∨ ∃ q, scale = .val q ∧ q ≤ 0) :
    castU32 (mfCeil (mfMul (.val tree.width) scale)) = 0 ∧
    render ext svg scale s = (-1, { s with resultBuf := [], errorBuf := zeroDimMsg }) := by
  have hzero := dim_zero_of_bad_scale tree.width scale hw hscale
  exact ⟨hzero,
    by rw [render_parsed ext svg scale s c db cps tree hdb hdec hparse, if_pos (Or.inl hzero)]⟩

/-- Witness for C8 at scale NaN. -/
theorem render_bad_scale_empty_output_witness :
    castU32 (mfCeil (mfMul (.val 1) .nan)) = 0 ∧
    render trivExt [60] .nan (font_db_init initState) =
      (-1, ⟨some (1, FontDb.empty), [], zeroDimMsg⟩) :=
  render_bad_scale_empty_output trivExt [60] .nan (font_db_init initState)
    1 FontDb.empty [60] ⟨1, 1⟩ rfl (by decide) rfl (by norm_num) (by norm_num) (Or.inl rfl)

/-- C3: every `render` call returns 0 or −1; on failure the Result Buffer is
empty and the Error Buffer holds the message of exactly one failure site; on
success the Error Buffer is empty; and both buffers are cleared before any
fallible step, so the outcome never depends on their prior contents. -/
theorem render_buffer_discipline (ext : Externals) (svg : Bytes) (scale : MFloat)
    (s : WasmState) :
    ((render ext svg scale s).1 = 0 ∨ (render ext svg scale s).1 = -1) ∧
    ((render ext svg scale s).1 = -1 →
      (render ext svg scale s).2.resultBuf = [] ∧
      (render ext svg scale s).2.errorBuf ≠ [] ∧
      ((render ext svg scale s).2.errorBuf = invalidUtf8Msg ∨
       (render ext svg scale s).2.errorBuf = notInitializedMsg ∨
       (∃ e, (render ext svg scale s).2.errorBuf = parseErrMsg e) ∨
       (render ext svg scale s).2.errorBuf = zeroDimMsg ∨
       (render ext svg scale s).2.errorBuf = pixmapFailMsg ∨
       (∃ e, (render ext svg scale s).2.errorBuf = pngErrMsg e))) ∧
    ((render ext svg scale s).1 = 0 →
      (render ext svg scale s).2.errorBuf = [] ∧
      (render ext svg scale s).2.resultBuf ≠ []) ∧
    (∀ r0 e0, render ext svg scale { s with resultBuf := r0, errorBuf := e0 } =
      render ext svg scale s) := by
  rcases render_shape ext svg scale s with ⟨st, hr, h1, h2, _⟩ |
    ⟨st, msg, hr, h1, h2, h3, _, h4⟩
  · rw [hr]
    exact ⟨Or.inl rfl, fun h => by simp at h, fun _ => ⟨h1, h2⟩,
      fun r0 e0 => hr⟩
  · rw [hr]
    refine ⟨Or.inr rfl, fun _ => ⟨h1, ?_, ?_⟩, fun h => by simp at h,
      fun r0 e0 => hr⟩
    · rw [h2]; exact h3
    · rw [h2]; exact h4

/-- Witness for C3 on a failing call (uninitialized database). -/
theorem render_buffer_discipline_witness :
    (render trivExt [60] (.val 1) ⟨none, [9, 9], [8]⟩).2.resultBuf = [] ∧
    (render trivExt [60] (.val 1) ⟨none, [9, 9], [8]⟩).2.errorBuf ≠ [] ∧
    render trivExt [60] (.val 1) ⟨none, [], []⟩ =
      render trivExt [60] (.val 1) ⟨none, [9, 9], [8]⟩ := by
  have h := render_buffer_discipline trivExt [60] (.val 1) ⟨none, [9, 9], [8]⟩
  have hfail := h.2.1 (by decide)
  exact ⟨hfail.1, hfail.2.1, h.2.2.2 [] []⟩

/-- C7: under sequential, non-reentrant execution every sequence of exported
calls from the initial state runs to completion — the `Arc::get_mut` unwrap
never panics — and between calls the font database always has exactly one
strong owner. -/
theorem exclusive_owner_safety (ext : Externals) (ops : List Op) :
    ∃ s', execOps ext ops initState = some s' ∧
      ∀ c db, s'.fontDb = some (c, db) → c = 1 :=
  execOps_total_countOk ext ops initState countOk_initState

/-- Witness for C7 on a concrete mutation-heavy sequence. -/
theorem exclusive_owner_safety_witness :
    ∃ s', execOps trivExt
        [Op.init, Op.setSans [65], Op.addFont [9], Op.doRender [60] .nan,
         Op.setMono [66]] initState = some s' ∧
      ∀ c db, s'.fontDb = some (c, db) → c = 1 :=
  exclusive_owner_safety trivExt
    [Op.init, Op.setSans [65], Op.addFont [9], Op.doRender [60] .nan, Op.setMono [66]]

/-- A positive intrinsic dimension times a positive scale gives a non-zero
computed dimension. -/
lemma dim_pos_of_pos_scale (t : ℚ) (scale : MFloat) (ht : 0 < t)
    (hs : mfPos scale = true) :
    castU32 (mfCeil (mfMul (.val t) scale)) ≠ 0 := by
  cases scale with
  | nan => simp [mfPos] at hs
  | inf b =>
    have hb : b = true := by simpa [mfPos] using hs
    subst hb
    have ht' : t ≠ 0 := ne_of_gt ht
    have hd : decide (0 < t) = true := decide_eq_true ht
    simp [mfMul, ht', hd, mfCeil, castU32]
  | val q =>
    have hq : 0 < q := by simpa [mfPos] using hs
    have h1 : 0 < t * q := mul_pos ht hq
    have h2 : (0 : ℤ) < ⌈t * q⌉ := Int.ceil_pos.mpr h1
    have h3 : ¬((⌈t * q⌉ : ℚ) ≤ 0) := by
      rw [not_le]
      exact_mod_cast h2
    have h4 : 1 ≤ (⌈t * q⌉).toNat := by omega
    simp only [mfMul, mfCeil, castU32, h3, if_false, Int.floor_intCast]
    omega

/-- C1 (amended): after `font_db_init`, for markup that decodes and parses to
a scene with positive intrinsic size and any scale > 0, provided the computed
pixel dimensions pass the raster-surface allocation bound
(`w * h * 4 < 2^32`), `render` returns 0, the Result Buffer is non-empty, and
the encoded image carries exactly the dimensions
`ceil(intrinsic * scale) as u32`, computed independently per axis. -/
theorem render_success_dims (ext : Externals) (svg : Bytes) (scale : MFloat)
    (s : WasmState) (c : Nat) (db : FontDb) (cps : Bytes) (tree : SvgTree)
    (hdb : s.fontDb = some (c, db)) (hdec : utf8Decode svg = some cps)
    (hparse : ext.parseTree db cps = .ok tree)
    (hw : 0 < tree.width) (hh : 0 < tree.height) (hs : mfPos scale = true)
    (hfit : castU32 (mfCeil (mfMul (.val tree.width) scale)) *
            castU32 (mfCeil (mfMul (.val tree.height) scale)) * 4 < 2 ^ 32) :
    (render ext svg scale s).1 = 0 ∧
    (render ext svg scale s).2.resultBuf ≠ [] ∧
    pngDims (render ext svg scale s).2.resultBuf =
      some (castU32 (mfCeil (mfMul (.val tree.width) scale)),
            castU32 (mfCeil (mfMul (.val tree.height) scale))) := by
  have hw0 := dim_pos_of_pos_scale tree.width scale hw hs
  have hh0 := dim_pos_of_pos_scale tree.height scale hh hs
  rw [render_parsed ext svg scale s c db cps tree hdb hdec hparse]
  rw [if_neg (by push_neg; exact ⟨hw0, hh0⟩)]
  rw [show pixmapNew (castU32 (mfCeil (mfMul (.val tree.width) scale)))
        (castU32 (mfCeil (mfMul (.val tree.height) scale))) =
      some ⟨castU32 (mfCeil (mfMul (.val tree.width) scale)),
            castU32 (mfCeil (mfMul (.val tree.height) scale)),
            List.replicate (castU32 (mfCeil (mfMul (.val tree.width) scale)) *
              castU32 (mfCeil (mfMul (.val tree.height) scale)) * 4) 0⟩
    from by rw [pixmapNew, if_pos ⟨hw0, hh0, hfit⟩]]
  have h1 : 1 ≤ castU32 (mfCeil (mfMul (.val tree.height) scale)) :=
    Nat.one_le_iff_ne_zero.mpr hh0
  have hw32 : castU32 (mfCeil (mfMul (.val tree.width) scale)) < 2 ^ 32 := by
    nlinarith
  have hh32 : castU32 (mfCeil (mfMul (.val tree.height) scale)) < 2 ^ 32 := by
    have h2 : 1 ≤ castU32 (mfCeil (mfMul (.val tree.width) scale)) :=
      Nat.one_le_iff_ne_zero.mpr hw0
    nlinarith
  refine ⟨rfl, ?_, ?_⟩
  · simp [encU32]
  · exact pngDims_encode _ _ _ hw32 hh32

/-- Witness for C1 (amended): a 1×1 scene at scale 1 renders to a 1×1 image. -/
theorem render_success_dims_witness :
    (render trivExt [60] (.val 1) (font_db_init initState)).1 = 0 ∧
    (render trivExt [60] (.val 1) (font_db_init initState)).2.resultBuf ≠ [] ∧
    pngDims (render trivExt [60] (.val 1) (font_db_init initState)).2.resultBuf =
      some (castU32 (mfCeil (mfMul (.val 1) (.val 1))),
            castU32 (mfCeil (mfMul (.val 1) (.val 1)))) := by
  have heval : castU32 (mfCeil (mfMul (.val (1 : ℚ)) (.val 1))) = 1 := by
    norm_num [mfMul, mfCeil, castU32]
  refine render_success_dims trivExt [60] (.val 1) (font_db_init initState)
    1 FontDb.empty [60] ⟨1, 1⟩ rfl (by decide) rfl (by norm_num) (by norm_num)
    (by norm_num [mfPos]) ?_
  rw [heval]
  norm_num

/-- Counterexample to C1 as stated: all premises of the claim hold — valid
UTF-8 markup, a parse yielding positive 1×1 intrinsic size, scale `2^40 > 0`,
an initialized font database — yet `render` returns −1: the computed
dimensions saturate at `u32::MAX` and the raster-surface allocation fails. -/
theorem render_success_dims_cex :
    utf8Decode [60] = some [60] ∧
    trivExt.parseTree FontDb.empty [60] = .ok ⟨1, 1⟩ ∧
    (0 : ℚ) < 1 ∧ mfPos (.val (2 ^ 40)) = true ∧
    (font_db_init initState).fontDb = some (1, FontDb.empty) ∧
    (render trivExt [60] (.val (2 ^ 40)) (font_db_init initState)).1 = -1 ∧
    (render trivExt [60] (.val (2 ^ 40)) (font_db_init initState)).2.errorBuf =
      pixmapFailMsg := by
  have heval : castU32 (mfCeil (mfMul (.val (1 : ℚ)) (.val (2 ^ 40)))) = 2 ^ 32 - 1 := by
    norm_num [mfMul, mfCeil, castU32]
  have hrender := render_parsed trivExt [60] (.val (2 ^ 40)) (font_db_init initState)
    1 FontDb.empty [60] ⟨1, 1⟩ rfl (by decide) rfl
  rw [heval] at hrender
  rw [if_neg (by norm_num), show pixmapNew (2 ^ 32 - 1) (2 ^ 32 - 1) = none from
    by rw [pixmapNew, if_neg (by norm_num)]] at hrender
  exact ⟨by decide, rfl, by norm_num, by norm_num [mfPos], rfl,
    by rw [hrender], by rw [hrender]⟩
